import Mathlib

/-!
# Verification of the xenia-canary GDB stub (`src/xenia/debug/gdb/gdbstub.cc`)

Shallow embedding of the RSP codec, the breakpoint registry, the session
cache and the register-read path of the GDB stub, together with proofs of
the testable properties of its specification.

Bytes are modelled as `Nat` (the C++ code works on `char`/`uint8_t`
buffers); `uint8_t` casts in the source appear as `% 256`, `uint32_t`
casts as `% 2^32`.  Buffers and strings are `List Nat` of byte values.
-/

namespace GdbStub

/-- ASCII bytes of a string literal, for readable byte-list constants. -/
def ascii (s : String) : List Nat := s.toList.map Char.toNat

/-- `GdbStubControl` byte values from the source enum. -/
def ctrlAck : Nat := 43        -- '+'
def ctrlNack : Nat := 45       -- '-'
def ctrlPacketStart : Nat := 36  -- '$'
def ctrlPacketEnd : Nat := 35    -- '#'
def ctrlInterrupt : Nat := 3     -- '\x03'

/-- `from_hexchar`: convert a hex digit byte (0-9, a-f, A-F) to its value;
anything else yields 0, as in the source. -/
def from_hexchar (c : Nat) : Nat :=
  if 48 ≤ c ∧ c ≤ 57 then c - 48
  else if 97 ≤ c ∧ c ≤ 102 then c - 97 + 10
  else if 65 ≤ c ∧ c ≤ 70 then c - 65 + 10
  else 0

/-- Lowercase hex digit byte for a nibble, the formula of `to_hexbyte`
(and of `fmt`'s `{:x}`): `'a' + n - 10` above 9, else `'0' + n`. -/
def hexDigitChar (n : Nat) : Nat :=
  if n > 9 then 97 + n - 10 else 48 + n

/-- `to_hexbyte`: two lowercase hex digit bytes of a byte value. -/
def to_hexbyte (i : Nat) : List Nat :=
  [hexDigitChar (i / 16 % 16), hexDigitChar (i % 16)]

/-- `u32_to_padded_hex`: `fmt::format("{:08x}", value)` for a `uint32_t`
value, as exactly eight lowercase hex digit bytes. -/
def u32_to_padded_hex (v : Nat) : List Nat :=
  (List.range 8).map (fun i => hexDigitChar (v / 16 ^ (7 - i) % 16))

/-- `u64_to_padded_hex`: `fmt::format("{:016x}", value)` for a `uint64_t`
value, as exactly sixteen lowercase hex digit bytes. -/
def u64_to_padded_hex (v : Nat) : List Nat :=
  (List.range 16).map (fun i => hexDigitChar (v / 16 ^ (15 - i) % 16))

/-- `static_cast<uint32_t>` of an `int64_t` value (two's complement
truncation), as a natural number. -/
def u32ofInt (i : Int) : Nat := (i % (2 ^ 32)).toNat

/-- The parsed `GDBCommand` structure: command token, data remainder and
the transmitted checksum byte. -/
structure GDBCommand where
  cmd : List Nat
  data : List Nat
  checksum : Nat
deriving DecidableEq, Repr

/-- `ReadCharFromBuffer`: reading past the end yields `'\0'` without
consuming; otherwise the head byte is consumed. -/
def rdChar : List Nat → Nat × List Nat
  | [] => (0, [])
  | c :: r => (c, r)

/-- `ReadHexByteFromBuffer` at the packet tail: two hex digit bytes give
`(high <<< 4) ||| low`; fewer than two remaining bytes give 0. -/
def readHexByte : List Nat → Nat
  | a :: b :: _ => (from_hexchar a) <<< 4 ||| from_hexchar b
  | _ => 0

/-- Result of the packet-start scan of `ParsePacket`: the interrupt
special case, a rejection, or the body after `'$'`. -/
inductive StartResult where
  | interrupt : StartResult
  | bad : StartResult
  | body : List Nat → StartResult
deriving DecidableEq, Repr

/-- The packet-start scan of `ParsePacket` (lines 444-467): expect `'$'`,
tolerating up to two leading `'+'` bytes, and recognising a bare
interrupt byte without any checksum. -/
def stripStart (p : List Nat) : StartResult :=
  let (c, r) := rdChar p
  if c = ctrlPacketStart then .body r
  else
    let (c, r) := if c = ctrlAck then rdChar r else (c, r)
    let (c, r) := if c = ctrlAck then rdChar r else (c, r)
    if c = ctrlInterrupt then .interrupt
    else if c = ctrlPacketStart then .body r
    else .bad

/-- The per-byte `cmd`/`data` bookkeeping at the bottom of the
`ParsePacket` loop (lines 493-507): the first `':'`/`'.'`/`';'` flips
`cmd_part` to false *before* the append, so the delimiter itself is
appended to `data`; a one-character `cmd` other than `'q'`/`'v'` also
ends the command part.  Returns the new `(cmd, data, cmd_part)`. -/
def parseAfter (c' : Nat) (cmd data : List Nat) (cmdPart : Bool) :
    List Nat × List Nat × Bool :=
  let cmdPart1 := if cmdPart ∧ (c' = 58 ∨ c' = 46 ∨ c' = 59) then false else cmdPart
  if cmdPart1 then
    let cmd' := cmd ++ [c']
    let cmdPart2 := if cmd'.length = 1 ∧ c' ≠ 113 ∧ c' ≠ 118 then false else cmdPart1
    (cmd', data, cmdPart2)
  else
    (cmd, data ++ [c'], cmdPart1)

/-- The body walk of `ParsePacket` (lines 477-508): accumulate `cmd` and
`data`, fold the running 8-bit checksum, decode `'}'` escapes (the `'}'`
and the post-XOR byte both enter the checksum), and stop at `'#'` or at
a `'\0'` read.  Returns `(cmd, data, checksum, rest)`. -/
def parseBody : List Nat → List Nat → List Nat → Bool → Nat →
    List Nat × List Nat × Nat × List Nat
  | [], cmd, data, _, ck => (cmd, data, ck, [])
  | c :: rest, cmd, data, cmdPart, ck =>
    if c = 0 ∨ c = ctrlPacketEnd then (cmd, data, ck, rest)
    else if c = 125 then
      match rest with
      | [] =>
        -- the escape read runs past the end: `ReadCharFromBuffer` yields
        -- `'\0'`, so the decoded byte is `0 ^^^ 0x20 = 0x20`; the next
        -- iteration reads `'\0'` again and stops
        let ck' := ((ck + c % 256) % 256 + 0x20) % 256
        let s := parseAfter 0x20 cmd data cmdPart
        (s.1, s.2.1, ck', [])
      | c2 :: rest2 =>
        let cDec := (c2 % 256) ^^^ 0x20
        let ck' := ((ck + c % 256) % 256 + cDec % 256) % 256
        let s := parseAfter cDec cmd data cmdPart
        parseBody rest2 s.1 s.2.1 s.2.2 ck'
    else
      let s := parseAfter c cmd data cmdPart
      parseBody rest s.1 s.2.1 s.2.2 ((ck + c % 256) % 256)

/-- The synthetic interrupt command produced by `ParsePacket` for a bare
`'\x03'` byte: `cmd = "\x03"`, empty data, checksum 0. -/
def interruptCommand : GDBCommand := ⟨[ctrlInterrupt], [], 0⟩

/-- `GDBStub::ParsePacket`: `some` command on success (checksum verified,
or the interrupt special case), `none` on rejection. -/
def parsePacket (packet : List Nat) : Option GDBCommand :=
  match stripStart packet with
  | .interrupt => some interruptCommand
  | .bad => none
  | .body rest =>
    let r := parseBody rest [] [] true 0
    let transmitted := readHexByte r.2.2.2
    if transmitted = r.2.2.1 then some ⟨r.1, r.2.1, transmitted⟩ else none

/-- The 8-bit modular checksum the receiver computes over a packet body:
each raw byte contributes, and a `'}'` escape additionally contributes
the decoded (post-XOR) byte; the walk stops at `'#'` or `'\0'`. -/
def bodySum : List Nat → Nat
  | [] => 0
  | c :: rest =>
    if c = 0 ∨ c = ctrlPacketEnd then 0
    else if c = 125 then
      match rest with
      | [] => (c % 256 + 0x20) % 256
      | c2 :: rest2 => ((c % 256 + ((c2 % 256) ^^^ 0x20) % 256) % 256 + bodySum rest2) % 256
    else (c % 256 + bodySum rest) % 256

/-- The extraction loop of `ProcessIncomingData` (lines 383-417), after
any interrupt handling, with an explicit fuel bound on the iteration
count: repeatedly find the first `'#'`; if at least two bytes follow
it, cut the packet (through the two checksum digits), parse it, and
continue on the remainder; otherwise wait for more data.  Returns the
list of `(packet, parse result)` pairs and the left-over buffer. -/
def drainLoopF : Nat → List Nat → List (List Nat × Option GDBCommand) × List Nat
  | 0, buf => ([], buf)
  | fuel + 1, buf =>
    match buf.findIdx? (fun c => c == ctrlPacketEnd) with
    | none => ([], buf)
    | some pe =>
      if pe + 2 < buf.length then
        let packet := buf.take (pe + 3)
        let r := drainLoopF fuel (buf.drop (pe + 3))
        ((packet, parsePacket packet) :: r.1, r.2)
      else ([], buf)

/-- The extraction loop with its fuel fixed at the buffer length; each
iteration consumes at least three bytes, so this fuel is never
exhausted (`drainLoopF_fuel_irrelevant`). -/
def drainLoop (buf : List Nat) : List (List Nat × Option GDBCommand) × List Nat :=
  drainLoopF buf.length buf

/-- `GDBStub::ProcessIncomingData` on one received chunk: append the
chunk to the buffer; if the chunk is the single interrupt byte
(`buffer[0] == '\x03' && received == 1`), the synthetic interrupt packet
is processed and the whole buffer is cleared; otherwise packets are
drained by `drainLoop`.  An empty receive returns without touching the
buffer.  Returns the `(packet, parse result)` trace and the final
buffer. -/
def processIncomingData (buffer chunk : List Nat) :
    List (List Nat × Option GDBCommand) × List Nat :=
  if chunk = [] then ([], buffer)
  else if chunk = [ctrlInterrupt] then
    ([([ctrlInterrupt], parsePacket [ctrlInterrupt])], [])
  else drainLoop (buffer ++ chunk)

/-- Wire events the session emits while processing received data. -/
inductive WireEvent where
  | ack : WireEvent
  | nack : WireEvent
  | dispatch : GDBCommand → WireEvent
deriving DecidableEq, Repr

/-- Events for one extracted packet: a successful parse is acknowledged
with `'+'` and the command dispatched; a failed parse sends `'-'` and
dispatches nothing (lines 406-413). -/
def eventsOfEntry : List Nat × Option GDBCommand → List WireEvent
  | (_, some c) => [.ack, .dispatch c]
  | (_, none) => [.nack]

/-- All wire events of one `ProcessIncomingData` round. -/
def eventsOf (trace : List (List Nat × Option GDBCommand)) : List WireEvent :=
  trace.flatMap eventsOfEntry

/-- `SendPacket`: wrap a reply as `$<data>#HH` with the two lowercase hex
digits of the 8-bit modular sum of the reply bytes. -/
def sendPacketWire (data : List Nat) : List Nat :=
  ctrlPacketStart :: data ++ [ctrlPacketEnd] ++
    to_hexbyte ((data.foldl (fun a c => a + c) 0) % 256)

/-- Modelled from the spec (client side, §4.1/P4): `}`-escape encoding of
a packet body by the sending debugger: each reserved byte `$`, `#`, `}`
is sent as `}` followed by the byte XOR `0x20`. -/
def encodeBody (body : List Nat) : List Nat :=
  body.flatMap (fun b =>
    if b = 36 ∨ b = 35 ∨ b = 125 then [125, b ^^^ 0x20] else [b])

/-- Modelled from the spec (client side, §9): the sender's checksum, the
8-bit modular sum of the on-wire body bytes as transmitted. -/
def senderChecksum (wire : List Nat) : Nat :=
  (wire.foldl (fun a c => a + c) 0) % 256

/-- A full client packet `$<wire body>#HH` for a given wire body and
checksum byte. -/
def mkWirePacket (wireBody : List Nat) (ck : Nat) : List Nat :=
  ctrlPacketStart :: wireBody ++ [ctrlPacketEnd] ++ to_hexbyte ck

/-! ## Breakpoint registry (C3 of the spec, `gdbstub.cc` lines 661-746) -/

/-- A registered code breakpoint: its guest address and the host
addresses the Processor patched for it.  Guest addresses in this
emulator are 32-bit. -/
structure GdbBreakpoint where
  guest_address : Nat
  host_addresses : List Nat
deriving DecidableEq, Repr

/-- `GDBStub::CreateCodeBreakpoint`: scan every registered entry; reject
(returning `false` with the registry untouched) when the guest address
is already taken or any of the new host addresses is in use by another
breakpoint; otherwise register. -/
def createCodeBreakpoint (reg : List GdbBreakpoint) (bp : GdbBreakpoint) :
    Bool × List GdbBreakpoint :=
  if reg.any (fun e =>
      e.guest_address == bp.guest_address ||
      bp.host_addresses.any (fun h => e.host_addresses.contains h))
  then (false, reg)
  else (true, reg ++ [bp])

/-- `GDBStub::DeleteCodeBreakpoint(uint64_t)`: look up by guest address
and erase that entry; a miss is a no-op. -/
def deleteCodeBreakpoint (reg : List GdbBreakpoint) (address : Nat) :
    List GdbBreakpoint :=
  reg.eraseP (fun e => e.guest_address == address)

/-- A registry operation, as reachable from the GDB command dispatch:
`Z` inserts, `z` removes, detach removes all. -/
inductive RegOp where
  | insert : GdbBreakpoint → RegOp
  | remove : Nat → RegOp
  | removeAll : RegOp
deriving DecidableEq, Repr

/-- One registry operation. `removeAll` is `DebuggerDetached` /
`OnDetached`, which clear the whole registry. -/
def regStep (reg : List GdbBreakpoint) : RegOp → List GdbBreakpoint
  | .insert bp => (createCodeBreakpoint reg bp).2
  | .remove a => deleteCodeBreakpoint reg a
  | .removeAll => []

/-- The registry reached from empty by a sequence of operations. -/
def runRegOps (ops : List RegOp) : List GdbBreakpoint :=
  ops.foldl regStep []

/-- Two breakpoints are compatible when their guest addresses differ and
their host-address sets are disjoint. -/
def BpDisjoint (a b : GdbBreakpoint) : Prop :=
  a.guest_address ≠ b.guest_address ∧
    ∀ h ∈ a.host_addresses, h ∉ b.host_addresses

/-- Registry invariants I1/I2: pairwise distinct guest addresses and
pairwise disjoint host-address sets. -/
def RegistryInv (reg : List GdbBreakpoint) : Prop :=
  reg.Pairwise BpDisjoint

/-- A new breakpoint collides with an entry when they share the guest
address or any host address. -/
def CollidesWith (e bp : GdbBreakpoint) : Prop :=
  e.guest_address = bp.guest_address ∨
    ∃ h ∈ bp.host_addresses, h ∈ e.host_addresses

/-! ## Session cache, threads and register encoding -/

/-- A call frame of a thread snapshot (only its guest PC is consulted). -/
structure GuestFrame where
  guest_pc : Nat
deriving DecidableEq, Repr

/-- The PPC register context of a thread snapshot: 32 GPR values, the 32
FPR 64-bit patterns (the source reads the doubles bitwise through a
`uint64_t` pointer), and `lr`/`ctr`/`cr`. -/
structure PPCContext where
  r : List Nat
  f : List Nat
  lr : Nat
  ctr : Nat
  cr : Nat
deriving DecidableEq, Repr

/-- A thread debug snapshot as used by the stub. -/
structure ThreadDebugInfo where
  thread_id : Nat
  thread_name : List Nat
  frames : List GuestFrame
  guest_context : PPCContext
deriving DecidableEq, Repr

/-- `cpu::ExecutionState`. -/
inductive ExecState where
  | running : ExecState
  | paused : ExecState
  | ended : ExecState
deriving DecidableEq, Repr

/-- The session cache.  The `-1` sentinels of the source are kept by
using `Int` for the id/address fields. -/
structure SessionCache where
  is_stopped : Bool
  notify_stopped : Bool
  notify_bp_thread_id : Int
  notify_bp_guest_address : Int
  cur_thread_id : Int
  last_bp_thread_id : Int
  thread_debug_infos : List ThreadDebugInfo
  modules : List Nat
  breakpoints : List GdbBreakpoint
deriving DecidableEq, Repr

/-- `GDBStub::UpdateCache` (lines 515-536): recompute `is_stopped` and
`notify_stopped`; when running, leave everything else stale; when
stopped, reload modules and threads and unconditionally set
`cur_thread_id` to the first thread's id.  Indexing
`thread_debug_infos[0]` on an empty listing is out of bounds, modelled
as `none`. -/
def updateCache (c : SessionCache) (exec : ExecState)
    (threads : List ThreadDebugInfo) (modules : List Nat) :
    Option SessionCache :=
  let stopped : Bool := if exec = ExecState.running then false else true
  let c1 := { c with is_stopped := stopped, notify_stopped := stopped }
  if stopped then
    match threads with
    | [] => none
    | t0 :: _ =>
      some { c1 with
              modules := modules,
              thread_debug_infos := threads,
              cur_thread_id := (t0.thread_id : Int) }
  else some c1

/-- The guest PC of the first call frame with a non-zero guest PC, or
zero when no frame has one (the loop of `ReadRegister`, case 64). -/
def firstFramePC (t : ThreadDebugInfo) : Nat :=
  match t.frames.find? (fun fr => fr.guest_pc != 0) with
  | some fr => fr.guest_pc
  | none => 0

/-- `GDBStub::ReadRegister(thread, rid)` (lines 200-253): fixed-width
lowercase hex encodings; register 64 (PC) consumes the one-shot
`notify_bp_guest_address` when armed; 65/69/70 are eight `'x'`
placeholders; ids above 70 give the empty string.  Returns the encoding
and the (possibly) updated cache. -/
def readRegister (c : SessionCache) (t : ThreadDebugInfo) (rid : Nat) :
    List Nat × SessionCache :=
  if rid = 64 then
    if c.notify_bp_guest_address ≠ -1 then
      (u32_to_padded_hex (u32ofInt c.notify_bp_guest_address),
       { c with notify_bp_guest_address := -1 })
    else
      (u32_to_padded_hex (firstFramePC t % 2 ^ 32), c)
  else if rid = 65 ∨ rid = 69 ∨ rid = 70 then (List.replicate 8 120, c)
  else if rid = 66 then (u32_to_padded_hex (t.guest_context.cr % 2 ^ 32), c)
  else if rid = 67 then (u32_to_padded_hex (t.guest_context.lr % 2 ^ 32), c)
  else if rid = 68 then (u32_to_padded_hex (t.guest_context.ctr % 2 ^ 32), c)
  else if rid > 70 then ([], c)
  else if rid > 31 then
    (u64_to_padded_hex (t.guest_context.f.getD (rid - 32) 0 % 2 ^ 64), c)
  else (u32_to_padded_hex (t.guest_context.r.getD rid 0 % 2 ^ 32), c)

/-- `GDBStub::ReadRegisters` (the `g` command, lines 547-554):
concatenate the encodings of registers 0..70, threading the cache
through (the PC read may consume the one-shot). -/
def readRegisters (c : SessionCache) (t : ThreadDebugInfo) :
    List Nat × SessionCache :=
  (List.range 71).foldl
    (fun acc i =>
      let r := readRegister acc.2 t i
      (acc.1 ++ r.1, r.2))
    ([], c)

/-- Modelled accessor `cache_.thread_info(id)` (declared in the stub's
header, which is not among the sources): look up a thread snapshot by
id. -/
def lookupThread (threads : List ThreadDebugInfo) (tid : Nat) :
    Option ThreadDebugInfo :=
  threads.find? (fun t => t.thread_id == tid)

/-- Modelled accessor `cache_.cur_thread_info()` (declared in the stub's
header, which is not among the sources): the snapshot of the focused
thread. -/
def curThreadInfo (c : SessionCache) : Option ThreadDebugInfo :=
  lookupThread c.thread_debug_infos (u32ofInt c.cur_thread_id)

/-- Unpadded lowercase hex digits (`fmt` `{:x}`), most significant
first; fuel recursion on the number of digits. -/
def natHexAux : Nat → Nat → List Nat
  | 0, _ => []
  | fuel + 1, n => if n = 0 then [] else natHexAux fuel (n / 16) ++ [hexDigitChar (n % 16)]

/-- `fmt::format("{:x}", n)`. -/
def natToHex (n : Nat) : List Nat :=
  if n = 0 then [48] else natHexAux n n

/-- Decimal digits, most significant first; fuel recursion. -/
def natDecAux : Nat → Nat → List Nat
  | 0, _ => []
  | fuel + 1, n => if n = 0 then [] else natDecAux fuel (n / 10) ++ [48 + n % 10]

/-- `std::to_string(n)` for an unsigned value. -/
def natToDec (n : Nat) : List Nat :=
  if n = 0 then [48] else natDecAux n n

/-- `GDBStub::GetThreadStateReply` (lines 632-659): a `T` stop reply
with the PC (64) and LR (67) pairs and the thread id, the PC forced to
the one-shot breakpoint address when armed; `S05` when the thread id is
the sentinel or unknown.  The `uint32_t` parameter makes the `-1`
sentinel compare as `0xffffffff`. -/
def getThreadStateReply (c : SessionCache) (tid32 : Nat) (signal : Nat) :
    List Nat :=
  match lookupThread c.thread_debug_infos tid32 with
  | some t =>
    if tid32 = u32ofInt (-1) then ascii "S05"
    else
      let pcv : Nat :=
        if c.notify_bp_guest_address ≠ -1 then u32ofInt c.notify_bp_guest_address
        else firstFramePC t % 2 ^ 32
      ascii "T" ++ to_hexbyte signal ++ to_hexbyte 64 ++ ascii ":" ++
        u32_to_padded_hex pcv ++ ascii ";" ++ to_hexbyte 67 ++ ascii ":" ++
        u32_to_padded_hex (t.guest_context.lr % 2 ^ 32) ++ ascii ";" ++
        ascii "thread:" ++ natToHex tid32 ++ ascii ";"
  | none => ascii "S05"

/-- The notification block at the bottom of the session loop
(lines 302-312): when `notify_stopped` is armed, adopt
`notify_bp_thread_id` as the focus (when not the sentinel), send the
stop reply, then clear `notify_bp_thread_id` and `notify_stopped`.
`notify_bp_guest_address` is *not* cleared here. -/
def sessionTick (c : SessionCache) : SessionCache × Option (List Nat) :=
  if c.notify_stopped then
    let c1 :=
      if c.notify_bp_thread_id ≠ -1 then { c with cur_thread_id := c.notify_bp_thread_id }
      else c
    let reply := getThreadStateReply c1 (u32ofInt c.notify_bp_thread_id) 5
    ({ c1 with notify_bp_thread_id := -1, notify_stopped := false }, some reply)
  else (c, none)

/-- `GDBStub::OnBreakpointHit` (lines 780-791): arm the one-shot fields
with the breakpoint address and the hitting thread, record the step
target, then refresh the cache. -/
def onBreakpointHit (c : SessionCache) (bpAddr : Nat) (t : ThreadDebugInfo)
    (exec : ExecState) (threads : List ThreadDebugInfo) (modules : List Nat) :
    Option SessionCache :=
  updateCache
    { c with
        notify_bp_guest_address := (bpAddr : Int),
        notify_bp_thread_id := (t.thread_id : Int),
        last_bp_thread_id := (t.thread_id : Int) }
    exec threads modules

/-- An observable step of the session after a stop event: a loop tick
(notification check) or a read of register 64 on a thread. -/
inductive SessionOp where
  | tick : SessionOp
  | readPC : ThreadDebugInfo → SessionOp
deriving DecidableEq, Repr

/-- Run session steps, collecting the final cache, the number of stop
replies sent and the PC-read results in order. -/
def runSession (c : SessionCache) : List SessionOp → SessionCache × Nat × List (List Nat)
  | [] => (c, 0, [])
  | .tick :: ops =>
    let r0 := sessionTick c
    let r := runSession r0.1 ops
    (r.1, (if r0.2.isSome then 1 else 0) + r.2.1, r.2.2)
  | .readPC t :: ops =>
    let r0 := readRegister c t 64
    let r := runSession r0.2 ops
    (r.1, r.2.1, r0.1 :: r.2.2)

/-! ## Guest memory and the command dispatcher -/

/-- The Processor/memory collaborator as observed by the stub: heap
lookup, protection query and byte reads through the translated host
pointer, plus the host addresses a new breakpoint would patch. -/
structure ProcEnv where
  hasHeap : Nat → Bool
  queryProtect : Nat → Option Nat
  readByte : Nat → Nat
  hostAddrsFor : Nat → List Nat

/-- `kMemoryProtectRead` (bit 0 of the protect flags, from
`xenia/memory.h`, which is not among the sources). -/
def kMemoryProtectRead : Nat := 1

/-- A hex digit byte, as accepted by `std::from_chars`/`std::stoul` with
base 16. -/
def isHexDigit (c : Nat) : Bool :=
  (48 ≤ c && c ≤ 57) || (97 ≤ c && c ≤ 102) || (65 ≤ c && c ≤ 70)

/-- `hex_to` / `std::stoull(..., 16)`: value of the longest leading run
of hex digits (an input with no digit leaves the result unchanged in
the source, i.e. indeterminate; 0 here). -/
def parseHex (s : List Nat) : Nat :=
  (s.takeWhile isHexDigit).foldl (fun acc c => acc * 16 + from_hexchar c) 0

/-- `std::stol(..., 16)` as used by the `H` handler, which may see a
leading `'-'`. -/
def parseHexInt (s : List Nat) : Int :=
  match s with
  | 45 :: rest => -(parseHex rest : Int)
  | _ => (parseHex s : Int)

/-- `GDBStub::ReadMemory` (lines 584-613): split `addr,len` at the first
comma (`substr(s + 1)` after a missing comma wraps `npos + 1` to 0, so
both halves are the whole string), check the heap and its read
protection, then hex-dump `len` bytes. -/
def readMemory (env : ProcEnv) (data : List Nat) : List Nat :=
  let s := data.findIdx? (fun c => c == 44)
  let addrStr := match s with | some i => data.take i | none => data
  let lenStr := match s with | some i => data.drop (i + 1) | none => data
  let addr := parseHex addrStr
  let len := parseHex lenStr
  if ¬ env.hasHeap addr then ascii "E01"
  else
    match env.queryProtect addr with
    | none => ascii "E01"
    | some protect =>
      if protect &&& kMemoryProtectRead ≠ kMemoryProtectRead then ascii "E01"
      else
        let result := (List.range len).flatMap
          (fun i => to_hexbyte (env.readByte (addr + i) % 256))
        if len ≠ 0 ∧ result = [] then ascii "E01" else result

/-- The static target-description XML (lines 57-139), served with the
leading `'l'` final-chunk marker. -/
def targetXml : List Nat :=
  ascii "l<?xml version=\"1.0\"?>\n<!DOCTYPE target SYSTEM \"gdb-target.dtd\">\n<target version=\"1.0\">\n<feature name=\"org.gnu.gdb.power.core\">\n" ++
  (List.range 32).flatMap (fun i =>
    ascii "  <reg name=\"r" ++ natToDec i ++ ascii "\" bitsize=\"32\" type=\"uint32\"/>\n") ++
  ascii "\n  <reg name=\"pc\" bitsize=\"32\" type=\"code_ptr\" regnum=\"64\"/>\n  <reg name=\"msr\" bitsize=\"32\" type=\"uint32\"/>\n  <reg name=\"cr\" bitsize=\"32\" type=\"uint32\"/>\n  <reg name=\"lr\" bitsize=\"32\" type=\"code_ptr\"/>\n  <reg name=\"ctr\" bitsize=\"32\" type=\"uint32\"/>\n  <reg name=\"xer\" bitsize=\"32\" type=\"uint32\"/>\n</feature>\n<feature name=\"org.gnu.gdb.power.fpu\">\n  <reg name=\"f0\" bitsize=\"64\" type=\"ieee_double\" regnum=\"32\"/>\n" ++
  (List.range 31).flatMap (fun i =>
    ascii "  <reg name=\"f" ++ natToDec (i + 1) ++ ascii "\" bitsize=\"64\" type=\"ieee_double\"/>\n") ++
  ascii "\n  <reg name=\"fpscr\" bitsize=\"32\" group=\"float\" regnum=\"70\"/>\n</feature>\n</target>\n"

/-- `GDBStub::BuildThreadList` (lines 617-630): the thread-list XML with
the `'l'` final-chunk marker; ids in hex, names verbatim. -/
def buildThreadList (c : SessionCache) : List Nat :=
  ascii "l<?xml version=\"1.0\"?>" ++ ascii "<threads>" ++
  c.thread_debug_infos.flatMap (fun t =>
    ascii "<thread id=\"" ++ natToHex t.thread_id ++ ascii "\" name=\"" ++
    t.thread_name ++ ascii "\"></thread>") ++
  ascii "</threads>"

/-- A placeholder snapshot: `cur_thread_info()` yields a pointer that the
source dereferences without a null check; when the focused id is absent
that dereference is undefined behaviour, so the model substitutes this
default (no claim relies on that situation). -/
def defaultThread : ThreadDebugInfo := ⟨0, [], [], ⟨[], [], 0, 0, 0⟩⟩

/-- The `H` command handler (lines 841-859): reset the focus to the
first thread (or the `-1` sentinel when the listing is empty), then
adopt the requested id when a thread with that id exists. -/
def handleH (c : SessionCache) (data : List Nat) : SessionCache :=
  let reset : Int :=
    match c.thread_debug_infos with
    | [] => -1
    | t0 :: _ => (t0.thread_id : Int)
  let threadId := parseHexInt (data.drop 1)
  if c.thread_debug_infos.any (fun t => (t.thread_id : Int) == threadId) then
    { c with cur_thread_id := threadId }
  else
    { c with cur_thread_id := reset }

/-- The hex address of a `Z`/`z` packet: skip the two bytes of type and
comma, then take up to the next comma. -/
def zPacketAddr (data : List Nat) : Nat :=
  let hexAddr := data.drop 2
  let addrStr :=
    match hexAddr.findIdx? (fun ch => ch == 44) with
    | some i => hexAddr.take i
    | none => hexAddr
  parseHex addrStr

/-- The `qXfer` handler (lines 881-894): drop one leading `':'` from the
data, take the object name up to the next `':'`; `features` serves the
target XML, `threads` the thread list, anything else `E01`. -/
def handleQXfer (c : SessionCache) (data : List Nat) : List Nat :=
  let param := match data with | 58 :: rest => rest | _ => data
  let subCmd :=
    match param.findIdx? (fun ch => ch == 58) with
    | some i => param.take i
    | none => param
  if subCmd = ascii "features" then targetXml
  else if subCmd = ascii "threads" then buildThreadList c
  else ascii "E01"

/-- `GDBStub::HandleGDBCommand` (lines 793-918): dispatch on the command
token; unknown commands reply with the empty string.  Returns the reply
body and the updated cache (the processor side effects of
pause/continue/step are outside the cache). -/
def handleGDBCommand (env : ProcEnv) (c : SessionCache) (cmd : GDBCommand) :
    List Nat × SessionCache :=
  if cmd.cmd = ascii "?" then (ascii "S05", c)
  else if cmd.cmd = ascii "D" then (ascii "OK", { c with breakpoints := [] })
  else if cmd.cmd = ascii "!" then (ascii "OK", c)
  else if cmd.cmd = ascii "C" then (ascii "OK", c)
  else if cmd.cmd = ascii "c" then (ascii "OK", c)
  else if cmd.cmd = ascii "s" then (ascii "OK", c)
  else if cmd.cmd = [ctrlInterrupt] then (ascii "OK", c)
  else if cmd.cmd = ascii "m" then (readMemory env cmd.data, c)
  else if cmd.cmd = ascii "p" then
    let t := (curThreadInfo c).getD defaultThread
    let r := readRegister c t (parseHex cmd.data)
    (if r.1 = [] then ascii "E01" else r.1, r.2)
  else if cmd.cmd = ascii "P" then (ascii "OK", c)
  else if cmd.cmd = ascii "g" then
    let t := (curThreadInfo c).getD defaultThread
    readRegisters c t
  else if cmd.cmd = ascii "vAttach" then (ascii "S05", c)
  else if cmd.cmd = ascii "qC" then
    (ascii "QC" ++ natToDec ((curThreadInfo c).getD defaultThread).thread_id, c)
  else if cmd.cmd = ascii "H" then (ascii "OK", handleH c cmd.data)
  else if cmd.cmd = ascii "Z" then
    let addr := zPacketAddr cmd.data
    let r := createCodeBreakpoint c.breakpoints ⟨addr, env.hostAddrsFor addr⟩
    (if r.1 then ascii "OK" else ascii "E01", { c with breakpoints := r.2 })
  else if cmd.cmd = ascii "z" then
    (ascii "OK", { c with breakpoints := deleteCodeBreakpoint c.breakpoints (zPacketAddr cmd.data) })
  else if cmd.cmd = ascii "qXfer" then (handleQXfer c cmd.data, c)
  else if cmd.cmd = ascii "qSupported" then
    (ascii "PacketSize=1024;qXfer:features:read+;qXfer:threads:read+", c)
  else if cmd.cmd = ascii "qfThreadInfo" then
    (ascii "m" ++
      List.intercalate (ascii ",") (c.thread_debug_infos.map (fun t => natToDec t.thread_id)), c)
  else ([], c)

/-- The command tokens the dispatcher map knows; anything else falls to
the empty "unsupported" reply. -/
def knownCommandKeys : List (List Nat) :=
  [ascii "?", ascii "D", ascii "!", ascii "C", ascii "c", ascii "s",
   [ctrlInterrupt], ascii "m", ascii "p", ascii "P", ascii "g",
   ascii "vAttach", ascii "qC", ascii "H", ascii "Z", ascii "z",
   ascii "qXfer", ascii "qSupported", ascii "qfThreadInfo"]

/-- The threads named by the `readPC` steps of a session run, in
order. -/
def pcReadThreads (ops : List SessionOp) : List ThreadDebugInfo :=
  ops.filterMap (fun op => match op with | .tick => none | .readPC t => some t)

/-- A byte that is not one of the command/data delimiters
`':'`/`'.'`/`';'`. -/
def notDelim (b : Nat) : Bool := !(b == 58 || b == 46 || b == 59)

/-!
## Theorems

Everything below is proved about the definitions above; the claim
theorems are named `c1_...` through `c10_...`.
-/

theorem length_u32_to_padded_hex (v : Nat) : (u32_to_padded_hex v).length = 8 := by
  simp [u32_to_padded_hex]

theorem length_u64_to_padded_hex (v : Nat) : (u64_to_padded_hex v).length = 16 := by
  simp [u64_to_padded_hex]

/-! ### C1: breakpoint registry invariants -/

theorem createCodeBreakpoint_inv {reg : List GdbBreakpoint} {bp : GdbBreakpoint}
    (hinv : RegistryInv reg) : RegistryInv (createCodeBreakpoint reg bp).2 := by
  unfold createCodeBreakpoint
  split
  · exact hinv
  · rename_i hnone
    rw [List.any_eq_true] at hnone
    push_neg at hnone
    unfold RegistryInv at hinv ⊢
    rw [List.pairwise_append]
    refine ⟨hinv, List.pairwise_singleton _ _, ?_⟩
    intro e he b hb
    rw [List.mem_singleton] at hb
    subst hb
    have h := hnone e he
    simp only [ne_eq, Bool.or_eq_true, beq_iff_eq, List.any_eq_true, List.contains,
      List.elem_eq_mem, decide_eq_true_eq] at h
    push_neg at h
    refine ⟨h.1, ?_⟩
    intro ha hae hab
    exact h.2 ha hab hae

theorem deleteCodeBreakpoint_inv {reg : List GdbBreakpoint} {a : Nat}
    (hinv : RegistryInv reg) : RegistryInv (deleteCodeBreakpoint reg a) :=
  hinv.sublist (List.eraseP_sublist reg)

theorem regStep_inv {reg : List GdbBreakpoint} {op : RegOp}
    (hinv : RegistryInv reg) : RegistryInv (regStep reg op) := by
  cases op with
  | insert bp => exact createCodeBreakpoint_inv hinv
  | remove a => exact deleteCodeBreakpoint_inv hinv
  | removeAll => exact List.Pairwise.nil

theorem foldl_regStep_inv (ops : List RegOp) :
    ∀ reg, RegistryInv reg → RegistryInv (ops.foldl regStep reg) := by
  induction ops with
  | nil => intro reg h; exact h
  | cons op ops ih => intro reg h; exact ih _ (regStep_inv h)

theorem createCodeBreakpoint_collision {reg : List GdbBreakpoint}
    {bp e : GdbBreakpoint} (he : e ∈ reg) (hc : CollidesWith e bp) :
    createCodeBreakpoint reg bp = (false, reg) := by
  unfold createCodeBreakpoint
  rw [if_pos]
  rw [List.any_eq_true]
  refine ⟨e, he, ?_⟩
  simp only [Bool.or_eq_true, beq_iff_eq, List.any_eq_true, List.contains,
    List.elem_eq_mem, decide_eq_true_eq]
  rcases hc with h | ⟨ha, hmem, hin⟩
  · exact Or.inl h
  · exact Or.inr ⟨ha, hmem, hin⟩

/-- C1: in every state reachable by Insert/Remove/RemoveAll from the
empty registry, guest addresses are unique and host-address sets are
pairwise disjoint; an Insert colliding with an existing entry on guest
address or any host address returns `false`, leaves the registry
unchanged, and keeps the existing breakpoint registered. -/
theorem c1_registry_invariants (ops : List RegOp) :
    RegistryInv (runRegOps ops) ∧
    ∀ bp e, e ∈ runRegOps ops → CollidesWith e bp →
      createCodeBreakpoint (runRegOps ops) bp = (false, runRegOps ops) ∧
      e ∈ (createCodeBreakpoint (runRegOps ops) bp).2 := by
  refine ⟨foldl_regStep_inv ops [] List.Pairwise.nil, ?_⟩
  intro bp e he hc
  have h := createCodeBreakpoint_collision he hc
  exact ⟨h, by rw [h]; exact he⟩

/-- Witness for C1 at a concrete operation sequence and a concrete
colliding insert. -/
theorem c1_registry_invariants_witness :
    RegistryInv (runRegOps [RegOp.insert ⟨256, [1, 2]⟩]) ∧
    createCodeBreakpoint (runRegOps [RegOp.insert ⟨256, [1, 2]⟩]) ⟨256, [3]⟩ =
      (false, runRegOps [RegOp.insert ⟨256, [1, 2]⟩]) ∧
    (⟨256, [1, 2]⟩ : GdbBreakpoint) ∈
      (createCodeBreakpoint (runRegOps [RegOp.insert ⟨256, [1, 2]⟩]) ⟨256, [3]⟩).2 := by
  have h := c1_registry_invariants [RegOp.insert ⟨256, [1, 2]⟩]
  have h2 := h.2 ⟨256, [3]⟩ ⟨256, [1, 2]⟩ (by decide) (Or.inl rfl)
  exact ⟨h.1, h2.1, h2.2⟩

/-! ### C7: the `g` reply is exactly 824 characters -/

theorem readRegister_length (c : SessionCache) (t : ThreadDebugInfo)
    {rid : Nat} (h : rid < 71) :
    (readRegister c t rid).1.length = if 32 ≤ rid ∧ rid < 64 then 16 else 8 := by
  unfold readRegister
  split_ifs with h1 h2 h3 h4 h5 h6 h7 h8 <;>
    simp_all [length_u32_to_padded_hex, length_u64_to_padded_hex] <;> omega

theorem readRegisters_foldl_length (t : ThreadDebugInfo) (l : List Nat)
    (hl : ∀ i ∈ l, i < 71) :
    ∀ (acc : List Nat) (c : SessionCache),
      ((l.foldl (fun acc i =>
          let r := readRegister acc.2 t i
          (acc.1 ++ r.1, r.2)) (acc, c)).1.length =
        acc.length + (l.map (fun i => if 32 ≤ i ∧ i < 64 then 16 else 8)).sum) := by
  induction l with
  | nil => intro acc c; simp
  | cons i l ih =>
    intro acc c
    have hi : i < 71 := hl i (List.mem_cons_self _ _)
    have hrest : ∀ j ∈ l, j < 71 := fun j hj => hl j (List.mem_cons_of_mem _ hj)
    simp only [List.foldl_cons, List.map_cons, List.sum_cons]
    rw [ih hrest]
    rw [List.length_append, readRegister_length c t hi]
    omega

/-- C7: for every cache state and every thread, the `g` reply
(registers 0..70 at their fixed widths) is exactly
`32*8 + 32*16 + 7*8 = 824` characters long. -/
theorem c7_g_reply_length (c : SessionCache) (t : ThreadDebugInfo) :
    (readRegisters c t).1.length = 824 := by
  unfold readRegisters
  rw [readRegisters_foldl_length t (List.range 71) (by intro i hi; simpa using hi) [] c]
  decide

/-! ### C4: the escape round trip against the receiver's checksum -/

/-- C4 (code bug): a conforming sender escapes the body `"}"` as the
on-wire bytes `"}]"` and computes its checksum from those on-wire bytes
(`0x7d + 0x5d = 0xda`), yielding the packet `$}]#da`; the receiver,
however, sums the `'}'` and the *decoded* byte (`0x7d + 0x7d = 0xfa`),
so it rejects the packet instead of accepting it.  Under the receiver's
own (non-standard) checksum `0xfa` the same wire body is accepted and
the original body is recovered (`cmd ++ data = "}"`). -/
theorem c4_escape_roundtrip_code_bug :
    encodeBody [125] = [125, 93] ∧
    senderChecksum (encodeBody [125]) = 218 ∧
    mkWirePacket (encodeBody [125]) (senderChecksum (encodeBody [125])) =
      [36, 125, 93, 35, 100, 97] ∧
    parsePacket (mkWirePacket (encodeBody [125]) (senderChecksum (encodeBody [125]))) = none ∧
    parsePacket (mkWirePacket (encodeBody [125]) 250) = some ⟨[125], [], 250⟩ := by
  decide

/-! ### C8: `cur_thread_id` across a paused cache refresh -/

/-- C8 counterexample: a paused refresh with `cur_thread_id = 7` and a
fresh listing `[5, 7]` — the focused thread 7 is present in the
listing, yet the refresh sets `cur_thread_id` to 5 (the first thread),
so a valid focus is *not* left unchanged. -/
theorem c8_cur_thread_counterexample :
    (updateCache ⟨true, false, -1, -1, 7, -1, [], [], []⟩ ExecState.paused
        [⟨5, [], [], ⟨[], [], 0, 0, 0⟩⟩, ⟨7, [], [], ⟨[], [], 0, 0, 0⟩⟩] []).map
      (fun c => c.cur_thread_id) = some 5 ∧
    ([⟨5, [], [], ⟨[], [], 0, 0, 0⟩⟩, ⟨7, [], [], ⟨[], [], 0, 0, 0⟩⟩] :
        List ThreadDebugInfo).map (fun t => (t.thread_id : Int)) = [5, 7] ∧
    (5 : Int) ≠ 7 := by
  decide

/-- C8 as amended: every cache refresh performed while the Processor is
not running sets `cur_thread_id` unconditionally to the first thread of
the freshly reloaded listing, clobbering the previous focus even when it
still names a thread present in the listing. -/
theorem c8_cur_thread_clobbered (c : SessionCache) (exec : ExecState)
    (t0 : ThreadDebugInfo) (rest : List ThreadDebugInfo) (modules : List Nat)
    (hstop : exec ≠ ExecState.running) :
    updateCache c exec (t0 :: rest) modules =
      some { c with is_stopped := true, notify_stopped := true,
                    modules := modules, thread_debug_infos := t0 :: rest,
                    cur_thread_id := (t0.thread_id : Int) } := by
  cases exec with
  | running => exact absurd rfl hstop
  | paused => rfl
  | ended => rfl

/-- Witness for the amended C8 at a concrete refresh. -/
theorem c8_cur_thread_clobbered_witness :
    updateCache ⟨true, false, -1, -1, 7, -1, [], [], []⟩ ExecState.paused
        [⟨5, [], [], ⟨[], [], 0, 0, 0⟩⟩] [44] =
      some ⟨true, true, -1, -1, 5, -1, [⟨5, [], [], ⟨[], [], 0, 0, 0⟩⟩], [44], []⟩ := by
  have h := c8_cur_thread_clobbered ⟨true, false, -1, -1, 7, -1, [], [], []⟩
    ExecState.paused ⟨5, [], [], ⟨[], [], 0, 0, 0⟩⟩ [] [44] (by decide)
  exact h

/-! ### C10: the paused refresh needs a non-empty thread listing -/

/-- C10: a cache refresh that observes the Processor as not running is
well-defined exactly when the freshly queried thread listing is
non-empty (the unconditional `thread_debug_infos[0]` access, modelled as
`none` on the empty listing, is unreachable under that precondition). -/
theorem c10_update_cache_nonempty (c : SessionCache) (exec : ExecState)
    (threads : List ThreadDebugInfo) (modules : List Nat)
    (hstop : exec ≠ ExecState.running) :
    (updateCache c exec threads modules).isSome ↔ threads ≠ [] := by
  cases exec with
  | running => exact absurd rfl hstop
  | paused => cases threads <;> simp [updateCache]
  | ended => cases threads <;> simp [updateCache]

/-- Witness for C10 at a concrete paused refresh. -/
theorem c10_update_cache_nonempty_witness :
    ((updateCache ⟨false, false, -1, -1, -1, -1, [], [], []⟩ ExecState.paused
        [⟨5, [], [], ⟨[], [], 0, 0, 0⟩⟩] []).isSome ↔
      ([⟨5, [], [], ⟨[], [], 0, 0, 0⟩⟩] : List ThreadDebugInfo) ≠ []) := by
  exact c10_update_cache_nonempty _ ExecState.paused _ _ (by decide)

/-! ### C2: every dispatched command passed checksum verification -/

theorem bodySum_lt (l : List Nat) : bodySum l < 256 := by
  cases l with
  | nil => simp [bodySum]
  | cons c rest =>
    cases rest with
    | nil => simp only [bodySum]; split_ifs <;> omega
    | cons c2 rest2 => simp only [bodySum]; split_ifs <;> omega

/-- The running checksum of the body walk equals the accumulator plus
the specification sum `bodySum`, modulo 256. -/
theorem parseBody_ck :
    ∀ (input cmd data : List Nat) (part : Bool) (ck : Nat), ck < 256 →
      (parseBody input cmd data part ck).2.2.1 = (ck + bodySum input) % 256
  | [], cmd, data, part, ck, h => by
    simp [parseBody, bodySum, Nat.mod_eq_of_lt h]
  | c :: rest, cmd, data, part, ck, h => by
    unfold parseBody bodySum
    split_ifs with h1 h2
    · simp [Nat.mod_eq_of_lt h]
    · cases rest with
      | nil => simp only []; omega
      | cons c2 rest2 =>
        simp only []
        rw [parseBody_ck rest2 _ _ _ _ (Nat.mod_lt _ (by omega))]
        have := bodySum_lt rest2
        omega
    · simp only []
      rw [parseBody_ck rest _ _ _ _ (Nat.mod_lt _ (by omega))]
      have := bodySum_lt rest
      omega

/-- A successful `ParsePacket` is either the interrupt special case or a
framed packet whose transmitted checksum equals the receiver's computed
body sum. -/
theorem parsePacket_checksum {p : List Nat} {cmd : GDBCommand}
    (h : parsePacket p = some cmd) :
    (stripStart p = StartResult.interrupt ∧ cmd = interruptCommand) ∨
    ∃ rest, stripStart p = StartResult.body rest ∧ cmd.checksum = bodySum rest := by
  unfold parsePacket at h
  cases hs : stripStart p with
  | interrupt =>
    rw [hs] at h
    simp only [Option.some.injEq] at h
    exact Or.inl ⟨rfl, h.symm⟩
  | bad => rw [hs] at h; exact absurd h (by simp)
  | body rest =>
    rw [hs] at h
    simp only [] at h
    split_ifs at h with hc
    simp only [Option.some.injEq] at h
    refine Or.inr ⟨rest, rfl, ?_⟩
    rw [← h]
    rw [hc, parseBody_ck rest [] [] true 0 (by omega)]
    simpa using Nat.mod_eq_of_lt (bodySum_lt rest)

/-- The fuel of `drainLoopF` is irrelevant once it covers the buffer
length: each iteration consumes at least three bytes. -/
theorem drainLoopF_fuel_irrelevant :
    ∀ (f1 : Nat), ∀ (f2 : Nat) (buf : List Nat), buf.length ≤ f1 → buf.length ≤ f2 →
      drainLoopF f1 buf = drainLoopF f2 buf := by
  intro f1
  induction f1 with
  | zero =>
    intro f2 buf h1 h2
    have hbuf : buf = [] := List.length_eq_zero.mp (Nat.le_zero.mp h1)
    subst hbuf
    cases f2 <;> rfl
  | succ f1 ih =>
    intro f2 buf h1 h2
    cases f2 with
    | zero =>
      have hbuf : buf = [] := List.length_eq_zero.mp (Nat.le_zero.mp h2)
      subst hbuf
      rfl
    | succ f2 =>
      show (match buf.findIdx? (fun c => c == ctrlPacketEnd) with
        | none => ([], buf)
        | some pe =>
          if pe + 2 < buf.length then
            ((buf.take (pe + 3), parsePacket (buf.take (pe + 3))) ::
              (drainLoopF f1 (buf.drop (pe + 3))).1, (drainLoopF f1 (buf.drop (pe + 3))).2)
          else ([], buf)) =
        (match buf.findIdx? (fun c => c == ctrlPacketEnd) with
        | none => ([], buf)
        | some pe =>
          if pe + 2 < buf.length then
            ((buf.take (pe + 3), parsePacket (buf.take (pe + 3))) ::
              (drainLoopF f2 (buf.drop (pe + 3))).1, (drainLoopF f2 (buf.drop (pe + 3))).2)
          else ([], buf))
      cases hfind : buf.findIdx? (fun c => c == ctrlPacketEnd) with
      | none => simp only [hfind]
      | some pe =>
        simp only [hfind]
        by_cases hpe : pe + 2 < buf.length
        · rw [if_pos hpe, if_pos hpe]
          have hrec : drainLoopF f1 (buf.drop (pe + 3)) = drainLoopF f2 (buf.drop (pe + 3)) := by
            apply ih
            · simp only [List.length_drop]; omega
            · simp only [List.length_drop]; omega
          rw [hrec]
        · rw [if_neg hpe, if_neg hpe]

/-- Every `(packet, result)` pair the extraction loop records carries
the parse result of that very packet. -/
theorem drainLoopF_trace (fuel : Nat) :
    ∀ buf p r, (p, r) ∈ (drainLoopF fuel buf).1 → r = parsePacket p := by
  induction fuel with
  | zero => intro buf p r hmem; simp [drainLoopF] at hmem
  | succ fuel ih =>
    intro buf p r hmem
    unfold drainLoopF at hmem
    cases hfind : buf.findIdx? (fun c => c == ctrlPacketEnd) with
    | none => rw [hfind] at hmem; simp at hmem
    | some pe =>
      simp only [hfind] at hmem
      by_cases hpe : pe + 2 < buf.length
      · rw [if_pos hpe] at hmem
        rcases List.mem_cons.mp hmem with heq | htail
        · have h1 : p = buf.take (pe + 3) := congrArg Prod.fst heq
          have h2 : r = parsePacket (buf.take (pe + 3)) := congrArg Prod.snd heq
          rw [h2, h1]
        · exact ih _ p r htail
      · rw [if_neg hpe] at hmem; simp at hmem

/-- C2: for any buffered bytes and any received chunk, every entry the
receiver extracts is either rejected (sending `'-'`, dispatching
nothing) or parsed into a command that is acknowledged with `'+'` and
dispatched, and in the latter case the command is the synthetic
interrupt or its transmitted two-hex-digit checksum equals the
receiver's computed 8-bit modular sum of the packet body; no command
failing checksum verification is ever produced. -/
theorem c2_checksum_discipline (buffer chunk p : List Nat) (r : Option GDBCommand)
    (hmem : (p, r) ∈ (processIncomingData buffer chunk).1) :
    (r = none ∧ eventsOfEntry (p, r) = [WireEvent.nack]) ∨
    (∃ cmd, r = some cmd ∧
      eventsOfEntry (p, r) = [WireEvent.ack, WireEvent.dispatch cmd] ∧
      ((stripStart p = StartResult.interrupt ∧ cmd = interruptCommand) ∨
       ∃ rest, stripStart p = StartResult.body rest ∧ cmd.checksum = bodySum rest)) := by
  have hpr : r = parsePacket p := by
    unfold processIncomingData drainLoop at hmem
    split_ifs at hmem with h1 h2
    · simp at hmem
    · rcases List.mem_singleton.mp hmem with heq
      have h1 : p = [ctrlInterrupt] := congrArg Prod.fst heq
      have h2 : r = parsePacket [ctrlInterrupt] := congrArg Prod.snd heq
      rw [h2, h1]
    · exact drainLoopF_trace _ _ p r hmem
  cases hr : parsePacket p with
  | none => exact Or.inl ⟨hpr.trans hr, by rw [hpr, hr]; rfl⟩
  | some cmd =>
    refine Or.inr ⟨cmd, hpr.trans hr, by rw [hpr, hr]; rfl, ?_⟩
    exact parsePacket_checksum hr

/-- Witness for C2 on a concrete receive containing one valid packet. -/
theorem c2_checksum_discipline_witness :
    ((some ⟨[109], [], 109⟩ : Option GDBCommand) = none ∧
      eventsOfEntry (ascii "$m#6d", some ⟨[109], [], 109⟩) = [WireEvent.nack]) ∨
    (∃ cmd, (some ⟨[109], [], 109⟩ : Option GDBCommand) = some cmd ∧
      eventsOfEntry (ascii "$m#6d", some ⟨[109], [], 109⟩) =
        [WireEvent.ack, WireEvent.dispatch cmd] ∧
      ((stripStart (ascii "$m#6d") = StartResult.interrupt ∧ cmd = interruptCommand) ∨
       ∃ rest, stripStart (ascii "$m#6d") = StartResult.body rest ∧
         cmd.checksum = bodySum rest)) := by
  refine c2_checksum_discipline [] (ascii "$m#6d") (ascii "$m#6d")
    (some ⟨[109], [], 109⟩) (by decide)

/-! ### C6: interrupt extraction and buffer discard -/

theorem drainLoopF_succ_none {fuel : Nat} {buf : List Nat}
    (hfind : buf.findIdx? (fun c => c == ctrlPacketEnd) = none) :
    drainLoopF (fuel + 1) buf = ([], buf) := by
  conv_lhs => unfold drainLoopF
  rw [hfind]

theorem drainLoopF_succ_some {fuel : Nat} {buf : List Nat} {pe : Nat}
    (hfind : buf.findIdx? (fun c => c == ctrlPacketEnd) = some pe) :
    drainLoopF (fuel + 1) buf =
      if pe + 2 < buf.length then
        ((buf.take (pe + 3), parsePacket (buf.take (pe + 3))) ::
          (drainLoopF fuel (buf.drop (pe + 3))).1,
         (drainLoopF fuel (buf.drop (pe + 3))).2)
      else ([], buf) := by
  conv_lhs => unfold drainLoopF
  rw [hfind]

/-- The bytes of the buffer are exactly the extracted packets followed
by the leftover: the drain loop discards nothing. -/
theorem drainLoopF_concat (fuel : Nat) :
    ∀ buf, ((drainLoopF fuel buf).1.map Prod.fst).flatten ++ (drainLoopF fuel buf).2 = buf := by
  induction fuel with
  | zero => intro buf; simp [drainLoopF]
  | succ fuel ih =>
    intro buf
    cases hfind : buf.findIdx? (fun c => c == ctrlPacketEnd) with
    | none => rw [drainLoopF_succ_none hfind]; simp
    | some pe =>
      rw [drainLoopF_succ_some hfind]
      by_cases hpe : pe + 2 < buf.length
      · rw [if_pos hpe]
        simp only [List.map_cons, List.flatten_cons, List.append_assoc]
        rw [ih (buf.drop (pe + 3))]
        exact List.take_append_drop (pe + 3) buf
      · rw [if_neg hpe]; simp

/-- C6 counterexample: with the leftover byte `'x'` already buffered, a
newly received single `'\x03'` chunk makes the receiver emit the
synthetic interrupt command and clear the whole buffer — although the
first unread byte of the buffer at that moment is `'x'`, not `'\x03'`,
and the buffer holds two bytes, so the claimed condition is false and
the buffered `'x'` is discarded. -/
theorem c6_interrupt_counterexample :
    processIncomingData [120] [3] = ([([3], some interruptCommand)], []) ∧
    [120] ++ [3] ≠ [3] := by
  decide

/-- C6 as amended: the receiver emits the synthetic interrupt command
through the unframed path exactly when the newly received chunk is the
single byte `'\x03'` — regardless of previously buffered bytes, which
are then all discarded (the buffer is cleared); for every other chunk,
interrupt handling discards nothing: the buffer evolves precisely by
removing the extracted framed packets. -/
theorem c6_interrupt_chunk (buffer chunk : List Nat) :
    (chunk = [ctrlInterrupt] →
      processIncomingData buffer chunk = ([([ctrlInterrupt], some interruptCommand)], [])) ∧
    (chunk ≠ [ctrlInterrupt] →
      ((processIncomingData buffer chunk).1.map Prod.fst).flatten ++
        (processIncomingData buffer chunk).2 = buffer ++ chunk) := by
  constructor
  · intro h
    subst h
    rfl
  · intro h
    unfold processIncomingData
    split_ifs with h1
    · subst h1; simp
    · exact drainLoopF_concat _ _

/-- Witness for the amended C6: the interrupt chunk with a stale buffer
byte, and an ordinary chunk that is kept buffered. -/
theorem c6_interrupt_chunk_witness :
    processIncomingData [120] [3] = ([([3], some interruptCommand)], []) ∧
    ((processIncomingData [] [36]).1.map Prod.fst).flatten ++
      (processIncomingData [] [36]).2 = [] ++ [36] := by
  exact ⟨(c6_interrupt_chunk [120] [3]).1 rfl, (c6_interrupt_chunk [] [36]).2 (by decide)⟩

/-! ### C5: command/data splitting at the first delimiter -/

/-- C5 counterexample: the packet `$q:a#0c` parses with `cmd = "q"` and
`data = ":a"` — the delimiter `':'` is *not* discarded; it is the first
byte of `data`, so `data` is not "exactly the bytes after the
delimiter" (`"a"`). -/
theorem c5_delimiter_counterexample :
    parsePacket (ascii "$q:a#0c") = some ⟨[113], [58, 97], 12⟩ ∧
    [58, 97] ≠ [97] := by
  decide

theorem bodySum_cons_plain {c : Nat} (rest : List Nat)
    (h0 : c ≠ 0) (h35 : c ≠ 35) (h125 : c ≠ 125) :
    bodySum (c :: rest) = (c % 256 + bodySum rest) % 256 := by
  cases rest with
  | nil => simp only [bodySum]; rw [if_neg (by simp [ctrlPacketEnd, h0, h35]), if_neg h125]
  | cons c2 rest2 =>
    simp only [bodySum]; rw [if_neg (by simp [ctrlPacketEnd, h0, h35]), if_neg h125]

theorem bodySum_break (tail : List Nat) : bodySum (35 :: tail) = 0 := by
  cases tail with
  | nil => rfl
  | cons c2 rest2 => rfl

theorem bodySum_append_end {body : List Nat} (tail : List Nat)
    (h : ∀ b ∈ body, b ≠ 0 ∧ b ≠ 35 ∧ b ≠ 125) :
    bodySum (body ++ 35 :: tail) = bodySum body := by
  induction body with
  | nil => rw [List.nil_append, bodySum_break]; rfl
  | cons c body ih =>
    have hc := h c (List.mem_cons_self _ _)
    have hrest : ∀ b ∈ body, b ≠ 0 ∧ b ≠ 35 ∧ b ≠ 125 :=
      fun b hb => h b (List.mem_cons_of_mem _ hb)
    rw [List.cons_append, bodySum_cons_plain _ hc.1 hc.2.1 hc.2.2,
      bodySum_cons_plain _ hc.1 hc.2.1 hc.2.2, ih hrest]

set_option maxRecDepth 4096 in
/-- Reading back the two hex digits of `to_hexbyte` recovers the
byte. -/
theorem readHexByte_to_hexbyte : ∀ n < 256, readHexByte (to_hexbyte n) = n := by
  decide

/-- `ParsePacket`'s body walk stops on `'#'` or a `'\0'` byte,
returning the accumulators and the bytes after the stop byte. -/
theorem parseBody_stop {c : Nat} (h : c = 0 ∨ c = 35)
    (input cmd data : List Nat) (part : Bool) (ck : Nat) :
    parseBody (c :: input) cmd data part ck = (cmd, data, ck, input) := by
  conv_lhs => unfold parseBody
  exact if_pos h

/-- One non-stop, non-escape step of the body walk. -/
theorem parseBody_plain_step {c : Nat} (h0 : c ≠ 0) (h35 : c ≠ ctrlPacketEnd)
    (h125 : c ≠ 125) (input cmd data : List Nat) (part : Bool) (ck : Nat) :
    parseBody (c :: input) cmd data part ck =
      parseBody input (parseAfter c cmd data part).1 (parseAfter c cmd data part).2.1
        (parseAfter c cmd data part).2.2 ((ck + c % 256) % 256) := by
  conv_lhs => unfold parseBody
  rw [if_neg (by simp [h0, h35]), if_neg h125]

/-- The bookkeeping step in the data phase simply appends to `data`. -/
theorem parseAfter_data (c : Nat) (cmd data : List Nat) :
    parseAfter c cmd data false = (cmd, data ++ [c], false) := rfl

/-- The bookkeeping step in the command phase on a non-delimiter byte
with an already non-empty command appends to `cmd`. -/
theorem parseAfter_cmd {c : Nat} (hd : ¬(c = 58 ∨ c = 46 ∨ c = 59))
    {cmd : List Nat} (hcmd : cmd ≠ []) (data : List Nat) :
    parseAfter c cmd data true = (cmd ++ [c], data, true) := by
  have hlen : (cmd ++ [c]).length ≠ 1 := by
    cases cmd with
    | nil => exact absurd rfl hcmd
    | cons y cmd => simp
  simp only [parseAfter]
  split_ifs with h1 h2 h3 <;> simp_all

/-- The bookkeeping step on a delimiter byte in the command phase flips
to the data phase and appends the delimiter to `data`. -/
theorem parseAfter_delim {c : Nat} (hd : c = 58 ∨ c = 46 ∨ c = 59)
    (cmd data : List Nat) :
    parseAfter c cmd data true = (cmd, data ++ [c], false) := by
  rcases hd with rfl | rfl | rfl <;> rfl

/-- In the data phase (`cmd_part = false`), every remaining plain byte
is appended to `data`. -/
theorem parseBody_data_phase (tail : List Nat) :
    ∀ (input : List Nat), (∀ b ∈ input, b ≠ 0 ∧ b ≠ 35 ∧ b ≠ 125) →
    ∀ (cmd data : List Nat) (ck : Nat),
      (parseBody (input ++ 35 :: tail) cmd data false ck).1 = cmd ∧
      (parseBody (input ++ 35 :: tail) cmd data false ck).2.1 = data ++ input ∧
      (parseBody (input ++ 35 :: tail) cmd data false ck).2.2.2 = tail := by
  intro input
  induction input with
  | nil =>
    intro _ cmd data ck
    rw [List.nil_append, parseBody_stop (Or.inr rfl)]
    simp
  | cons x input ih =>
    intro h cmd data ck
    have hx := h x (List.mem_cons_self _ _)
    have hrest : ∀ b ∈ input, b ≠ 0 ∧ b ≠ 35 ∧ b ≠ 125 :=
      fun b hb => h b (List.mem_cons_of_mem _ hb)
    have hstep : parseBody ((x :: input) ++ 35 :: tail) cmd data false ck =
        parseBody (input ++ 35 :: tail) cmd (data ++ [x]) false ((ck + x % 256) % 256) := by
      rw [List.cons_append, parseBody_plain_step hx.1 hx.2.1 hx.2.2, parseAfter_data]
    rw [hstep]
    obtain ⟨h1, h2, h3⟩ := ih hrest cmd (data ++ [x]) ((ck + x % 256) % 256)
    exact ⟨h1, by rw [h2]; simp, h3⟩

/-- In the command phase with a non-empty command accumulator, the body
walk accumulates `cmd` up to the first delimiter, which starts
`data`. -/
theorem parseBody_cmd_phase (tail : List Nat) :
    ∀ (input : List Nat), (∀ b ∈ input, b ≠ 0 ∧ b ≠ 35 ∧ b ≠ 125) →
    ∀ (cmd data : List Nat) (ck : Nat), cmd ≠ [] →
      (parseBody (input ++ 35 :: tail) cmd data true ck).1 =
        cmd ++ input.takeWhile notDelim ∧
      (parseBody (input ++ 35 :: tail) cmd data true ck).2.1 =
        data ++ input.dropWhile notDelim ∧
      (parseBody (input ++ 35 :: tail) cmd data true ck).2.2.2 = tail := by
  intro input
  induction input with
  | nil =>
    intro _ cmd data ck _
    rw [List.nil_append, parseBody_stop (Or.inr rfl)]
    simp
  | cons x input ih =>
    intro h cmd data ck hcmd
    have hx := h x (List.mem_cons_self _ _)
    have hrest : ∀ b ∈ input, b ≠ 0 ∧ b ≠ 35 ∧ b ≠ 125 :=
      fun b hb => h b (List.mem_cons_of_mem _ hb)
    by_cases hd : x = 58 ∨ x = 46 ∨ x = 59
    · -- delimiter: flips to the data phase and lands in `data`
      have hstep : parseBody ((x :: input) ++ 35 :: tail) cmd data true ck =
          parseBody (input ++ 35 :: tail) cmd (data ++ [x]) false ((ck + x % 256) % 256) := by
        rw [List.cons_append, parseBody_plain_step hx.1 hx.2.1 hx.2.2, parseAfter_delim hd]
      rw [hstep]
      obtain ⟨h1, h2, h3⟩ := parseBody_data_phase tail input hrest cmd (data ++ [x])
        ((ck + x % 256) % 256)
      have hnd : notDelim x = false := by
        rcases hd with rfl | rfl | rfl <;> rfl
      refine ⟨?_, ?_, h3⟩
      · rw [h1, List.takeWhile_cons, hnd]; simp
      · rw [h2, List.dropWhile_cons, hnd]; simp
    · -- ordinary byte: stays in the command phase
      have hnd : notDelim x = true := by
        unfold notDelim
        push_neg at hd
        simp [hd.1, hd.2.1, hd.2.2]
      have hstep : parseBody ((x :: input) ++ 35 :: tail) cmd data true ck =
          parseBody (input ++ 35 :: tail) (cmd ++ [x]) data true ((ck + x % 256) % 256) := by
        rw [List.cons_append, parseBody_plain_step hx.1 hx.2.1 hx.2.2,
          parseAfter_cmd hd hcmd]
      rw [hstep]
      obtain ⟨h1, h2, h3⟩ := ih hrest (cmd ++ [x]) data ((ck + x % 256) % 256) (by simp)
      refine ⟨?_, ?_, h3⟩
      · rw [h1, List.takeWhile_cons, hnd]; simp
      · rw [h2, List.dropWhile_cons, hnd]; simp

/-- C5 as amended: for a packet whose plain body starts with `'q'` or
`'v'` and contains a delimiter, `cmd` is the bytes strictly before the
first `':'`/`'.'`/`';'`, and the delimiter is *not* discarded: it
becomes the first byte of `data`, followed by all remaining bytes. -/
theorem c5_split_keeps_delimiter (q : Nat) (rest : List Nat)
    (hq : q = 113 ∨ q = 118)
    (hplain : ∀ b ∈ q :: rest, b ≠ 0 ∧ b ≠ 35 ∧ b ≠ 125) :
    parsePacket (mkWirePacket (q :: rest) (bodySum (q :: rest))) =
      some ⟨q :: rest.takeWhile notDelim, rest.dropWhile notDelim,
            bodySum (q :: rest)⟩ := by
  have hqx := hplain q (List.mem_cons_self _ _)
  have hrest : ∀ b ∈ rest, b ≠ 0 ∧ b ≠ 35 ∧ b ≠ 125 :=
    fun b hb => hplain b (List.mem_cons_of_mem _ hb)
  have hbody : mkWirePacket (q :: rest) (bodySum (q :: rest)) =
      36 :: ((q :: rest) ++ 35 :: to_hexbyte (bodySum (q :: rest))) := by
    simp [mkWirePacket, ctrlPacketStart, ctrlPacketEnd]
  have hstrip : stripStart (mkWirePacket (q :: rest) (bodySum (q :: rest))) =
      StartResult.body ((q :: rest) ++ 35 :: to_hexbyte (bodySum (q :: rest))) := by
    rw [hbody]; rfl
  unfold parsePacket
  simp only [hstrip]
  have hfirst : parseBody ((q :: rest) ++ 35 :: to_hexbyte (bodySum (q :: rest))) [] [] true 0 =
      parseBody (rest ++ 35 :: to_hexbyte (bodySum (q :: rest))) [q] [] true ((0 + q % 256) % 256) := by
    rw [List.cons_append, parseBody_plain_step hqx.1 hqx.2.1 hqx.2.2]
    have hq' : parseAfter q [] [] true = ([q], [], true) := by
      rcases hq with rfl | rfl <;> rfl
    rw [hq']
  obtain ⟨h1, h2, h3⟩ := parseBody_cmd_phase (to_hexbyte (bodySum (q :: rest))) rest hrest
    [q] [] ((0 + q % 256) % 256) (by simp)
  have hck : (parseBody ((q :: rest) ++ 35 :: to_hexbyte (bodySum (q :: rest))) [] [] true 0).2.2.1 =
      bodySum (q :: rest) := by
    rw [parseBody_ck _ [] [] true 0 (by omega)]
    rw [bodySum_append_end _ hplain]
    simpa using Nat.mod_eq_of_lt (bodySum_lt (q :: rest))
  rw [hfirst] at hck
  rw [hfirst]
  rw [h3, hck, readHexByte_to_hexbyte _ (bodySum_lt _), if_pos rfl, h1, h2]
  rfl

/-- Witness for the amended C5 at the concrete body `"q:a"`. -/
theorem c5_split_keeps_delimiter_witness :
    parsePacket (mkWirePacket [113, 58, 97] (bodySum [113, 58, 97])) =
      some ⟨[113] ++ [58, 97].takeWhile notDelim, [58, 97].dropWhile notDelim,
            bodySum [113, 58, 97]⟩ := by
  have h := c5_split_keeps_delimiter 113 [58, 97] (Or.inl rfl) (by decide)
  simpa using h

/-! ### C3: one-shot stop notification and forced PC -/

theorem updateCache_notify_addr {c c' : SessionCache} {exec : ExecState}
    {threads : List ThreadDebugInfo} {modules : List Nat}
    (h : updateCache c exec threads modules = some c') :
    c'.notify_bp_guest_address = c.notify_bp_guest_address := by
  cases exec with
  | running =>
    rw [show updateCache c ExecState.running threads modules =
      some { c with is_stopped := false, notify_stopped := false } from rfl] at h
    injection h with h
    rw [← h]
  | paused =>
    cases threads with
    | nil =>
      rw [show updateCache c ExecState.paused [] modules = none from rfl] at h
      cases h
    | cons t0 rest =>
      have heq : updateCache c ExecState.paused (t0 :: rest) modules =
          some { c with is_stopped := true, notify_stopped := true, modules := modules, thread_debug_infos := t0 :: rest, cur_thread_id := (t0.thread_id : Int) } := rfl
      rw [heq] at h
      injection h with h
      rw [← h]
  | ended =>
    cases threads with
    | nil =>
      rw [show updateCache c ExecState.ended [] modules = none from rfl] at h
      cases h
    | cons t0 rest =>
      have heq : updateCache c ExecState.ended (t0 :: rest) modules =
          some { c with is_stopped := true, notify_stopped := true, modules := modules, thread_debug_infos := t0 :: rest, cur_thread_id := (t0.thread_id : Int) } := rfl
      rw [heq] at h
      injection h with h
      rw [← h]

theorem sessionTick_addr (c : SessionCache) :
    (sessionTick c).1.notify_bp_guest_address = c.notify_bp_guest_address := by
  unfold sessionTick
  split_ifs <;> rfl

theorem sessionTick_ns (c : SessionCache) :
    (sessionTick c).1.notify_stopped = false := by
  unfold sessionTick
  split_ifs with h1 h2
  · rfl
  · rfl
  · simpa using h1

theorem readRegister64_ns (c : SessionCache) (t : ThreadDebugInfo) :
    (readRegister c t 64).2.notify_stopped = c.notify_stopped := by
  unfold readRegister
  split_ifs <;> rfl

theorem readRegister64_armed {c : SessionCache} {a : Nat} (ha : a < 2 ^ 32)
    (hc : c.notify_bp_guest_address = (a : Int)) (t : ThreadDebugInfo) :
    readRegister c t 64 =
      (u32_to_padded_hex a, { c with notify_bp_guest_address := -1 }) := by
  unfold readRegister
  rw [if_pos rfl, if_pos (show c.notify_bp_guest_address ≠ -1 by rw [hc]; omega)]
  have h : u32ofInt c.notify_bp_guest_address = a := by
    rw [hc]
    unfold u32ofInt
    omega
  rw [h]

theorem readRegister64_quiet {c : SessionCache}
    (hc : c.notify_bp_guest_address = -1) (t : ThreadDebugInfo) :
    readRegister c t 64 = (u32_to_padded_hex (firstFramePC t % 2 ^ 32), c) := by
  unfold readRegister
  rw [if_pos rfl, if_neg (show ¬ c.notify_bp_guest_address ≠ -1 by rw [hc]; omega)]

theorem runSession_replies (ops : List SessionOp) :
    ∀ c : SessionCache,
      (runSession c ops).2.1 ≤ if c.notify_stopped then 1 else 0 := by
  induction ops with
  | nil => intro c; simp [runSession]
  | cons op ops ih =>
    intro c
    cases op with
    | tick =>
      show (if (sessionTick c).2.isSome then 1 else 0) + (runSession (sessionTick c).1 ops).2.1 ≤ _
      have h1 := ih (sessionTick c).1
      rw [sessionTick_ns c] at h1
      simp only [Bool.false_eq_true, if_false] at h1
      by_cases hns : c.notify_stopped
      · rw [if_pos hns]
        have h2 : (if (sessionTick c).2.isSome then 1 else 0) ≤ 1 := by split_ifs <;> omega
        omega
      · rw [if_neg hns]
        have h2 : (sessionTick c).2.isSome = false := by
          unfold sessionTick
          rw [if_neg hns]
          rfl
        rw [h2]
        simpa using h1
    | readPC t =>
      show (runSession (readRegister c t 64).2 ops).2.1 ≤ _
      have h1 := ih (readRegister c t 64).2
      rw [readRegister64_ns c t] at h1
      exact h1

theorem runSession_quiet (ops : List SessionOp) :
    ∀ c : SessionCache, c.notify_bp_guest_address = -1 →
      (runSession c ops).2.2 =
        (pcReadThreads ops).map (fun t => u32_to_padded_hex (firstFramePC t % 2 ^ 32)) ∧
      (runSession c ops).1.notify_bp_guest_address = -1 := by
  induction ops with
  | nil => intro c hc; exact ⟨rfl, hc⟩
  | cons op ops ih =>
    intro c hc
    cases op with
    | tick =>
      have hc1 : (sessionTick c).1.notify_bp_guest_address = -1 := by
        rw [sessionTick_addr]; exact hc
      exact ih (sessionTick c).1 hc1
    | readPC t =>
      have h := ih c hc
      refine ⟨?_, ?_⟩
      · show (readRegister c t 64).1 :: (runSession (readRegister c t 64).2 ops).2.2 = _
        rw [readRegister64_quiet hc t]
        simp only []
        rw [h.1]
        rfl
      · show (runSession (readRegister c t 64).2 ops).1.notify_bp_guest_address = -1
        rw [readRegister64_quiet hc t]
        exact h.2

theorem runSession_armed (ops : List SessionOp) :
    ∀ (c : SessionCache) (a : Nat), a < 2 ^ 32 →
      c.notify_bp_guest_address = (a : Int) →
      (runSession c ops).2.2 =
        (match pcReadThreads ops with
         | [] => []
         | _ :: rest =>
           u32_to_padded_hex a ::
             rest.map (fun t => u32_to_padded_hex (firstFramePC t % 2 ^ 32))) ∧
      (pcReadThreads ops ≠ [] →
        (runSession c ops).1.notify_bp_guest_address = -1) := by
  induction ops with
  | nil => intro c a _ _; exact ⟨rfl, fun h => absurd rfl h⟩
  | cons op ops ih =>
    intro c a ha hc
    cases op with
    | tick =>
      have hc1 : (sessionTick c).1.notify_bp_guest_address = (a : Int) := by
        rw [sessionTick_addr]; exact hc
      exact ih (sessionTick c).1 a ha hc1
    | readPC t =>
      have h := runSession_quiet ops { c with notify_bp_guest_address := -1 } rfl
      refine ⟨?_, fun _ => ?_⟩
      · show (readRegister c t 64).1 :: (runSession (readRegister c t 64).2 ops).2.2 = _
        rw [readRegister64_armed ha hc t]
        simp only []
        rw [h.1]
        rfl
      · show (runSession (readRegister c t 64).2 ops).1.notify_bp_guest_address = -1
        rw [readRegister64_armed ha hc t]
        exact h.2

/-- C3: after a single `OnBreakpointHit` with no further Processor stop
events, any interleaving of session-loop ticks and PC reads sends at
most one stop reply; the first read of register 64 returns the
breakpoint guest address (and clears the one-shot), and every later
read returns the guest PC of the thread's first call frame with a
non-zero guest PC, or zero when there is none. -/
theorem c3_one_shot_notification (c0 c1 : SessionCache) (bpAddr : Nat)
    (t : ThreadDebugInfo) (exec : ExecState) (threads : List ThreadDebugInfo)
    (modules : List Nat) (ops : List SessionOp)
    (haddr : bpAddr < 2 ^ 32)
    (hhit : onBreakpointHit c0 bpAddr t exec threads modules = some c1) :
    (runSession c1 ops).2.1 ≤ 1 ∧
    (runSession c1 ops).2.2 =
      (match pcReadThreads ops with
       | [] => []
       | _ :: rest =>
         u32_to_padded_hex bpAddr ::
           rest.map (fun th => u32_to_padded_hex (firstFramePC th % 2 ^ 32))) ∧
    (pcReadThreads ops ≠ [] →
      (runSession c1 ops).1.notify_bp_guest_address = -1) := by
  have haddr1 : c1.notify_bp_guest_address = (bpAddr : Int) := by
    unfold onBreakpointHit at hhit
    exact updateCache_notify_addr hhit
  have harmed := runSession_armed ops c1 bpAddr haddr haddr1
  refine ⟨?_, harmed.1, harmed.2⟩
  have h := runSession_replies ops c1
  split_ifs at h <;> omega

/-- Witness for C3: a breakpoint hit at `0x1000` on thread 7 whose
first non-zero frame PC is `0x2000`, followed by tick, read, tick,
read. -/
theorem c3_one_shot_notification_witness :
    (runSession ⟨true, true, 7, 4096, 7, 7,
        [⟨7, [], [⟨0⟩, ⟨8192⟩], ⟨[], [], 0, 0, 0⟩⟩], [], []⟩
       [SessionOp.tick, SessionOp.readPC ⟨7, [], [⟨0⟩, ⟨8192⟩], ⟨[], [], 0, 0, 0⟩⟩,
        SessionOp.tick, SessionOp.readPC ⟨7, [], [⟨0⟩, ⟨8192⟩], ⟨[], [], 0, 0, 0⟩⟩]).2.1 ≤ 1 ∧
    (runSession ⟨true, true, 7, 4096, 7, 7,
        [⟨7, [], [⟨0⟩, ⟨8192⟩], ⟨[], [], 0, 0, 0⟩⟩], [], []⟩
       [SessionOp.tick, SessionOp.readPC ⟨7, [], [⟨0⟩, ⟨8192⟩], ⟨[], [], 0, 0, 0⟩⟩,
        SessionOp.tick, SessionOp.readPC ⟨7, [], [⟨0⟩, ⟨8192⟩], ⟨[], [], 0, 0, 0⟩⟩]).2.2 =
      (match pcReadThreads
          [SessionOp.tick, SessionOp.readPC ⟨7, [], [⟨0⟩, ⟨8192⟩], ⟨[], [], 0, 0, 0⟩⟩,
           SessionOp.tick, SessionOp.readPC ⟨7, [], [⟨0⟩, ⟨8192⟩], ⟨[], [], 0, 0, 0⟩⟩] with
       | [] => []
       | _ :: rest =>
         u32_to_padded_hex 4096 ::
           rest.map (fun th => u32_to_padded_hex (firstFramePC th % 2 ^ 32))) ∧
    (pcReadThreads
        [SessionOp.tick, SessionOp.readPC ⟨7, [], [⟨0⟩, ⟨8192⟩], ⟨[], [], 0, 0, 0⟩⟩,
         SessionOp.tick, SessionOp.readPC ⟨7, [], [⟨0⟩, ⟨8192⟩], ⟨[], [], 0, 0, 0⟩⟩] ≠ [] →
      (runSession ⟨true, true, 7, 4096, 7, 7,
          [⟨7, [], [⟨0⟩, ⟨8192⟩], ⟨[], [], 0, 0, 0⟩⟩], [], []⟩
         [SessionOp.tick, SessionOp.readPC ⟨7, [], [⟨0⟩, ⟨8192⟩], ⟨[], [], 0, 0, 0⟩⟩,
          SessionOp.tick, SessionOp.readPC ⟨7, [], [⟨0⟩, ⟨8192⟩], ⟨[], [], 0, 0, 0⟩⟩]).1.notify_bp_guest_address = -1) := by
  exact c3_one_shot_notification
    ⟨true, false, -1, -1, -1, -1, [], [], []⟩
    ⟨true, true, 7, 4096, 7, 7, [⟨7, [], [⟨0⟩, ⟨8192⟩], ⟨[], [], 0, 0, 0⟩⟩], [], []⟩
    4096 ⟨7, [], [⟨0⟩, ⟨8192⟩], ⟨[], [], 0, 0, 0⟩⟩ ExecState.paused
    [⟨7, [], [⟨0⟩, ⟨8192⟩], ⟨[], [], 0, 0, 0⟩⟩] []
    [SessionOp.tick, SessionOp.readPC ⟨7, [], [⟨0⟩, ⟨8192⟩], ⟨[], [], 0, 0, 0⟩⟩,
     SessionOp.tick, SessionOp.readPC ⟨7, [], [⟨0⟩, ⟨8192⟩], ⟨[], [], 0, 0, 0⟩⟩]
    (by decide) (by decide)

/-! ### C9: zero-length memory read equals the unsupported-command reply -/

theorem findIdx?_comma {l1 l2 : List Nat} (h : ∀ b ∈ l1, (b == 44) = false) :
    (l1 ++ 44 :: l2).findIdx? (fun c => c == 44) = some l1.length := by
  rw [List.findIdx?_append]
  have h1 : l1.findIdx? (fun c => c == 44) = none := by
    rw [List.findIdx?_eq_none_iff]
    exact h
  rw [h1]
  simp

theorem isHexDigit_ne_comma {b : Nat} (h : isHexDigit b = true) : (b == 44) = false := by
  unfold isHexDigit at h
  simp only [Bool.or_eq_true, Bool.and_eq_true, decide_eq_true_eq] at h
  simp only [beq_eq_false_iff_ne]
  omega

/-- A zero-length `ReadMemory` of a mapped, readable address yields the
empty reply. -/
theorem readMemory_zero_len (env : ProcEnv) {addrDigits : List Nat} {pr : Nat}
    (hne : addrDigits ≠ [])
    (hdig : ∀ b ∈ addrDigits, isHexDigit b = true)
    (hheap : env.hasHeap (parseHex addrDigits) = true)
    (hq : env.queryProtect (parseHex addrDigits) = some pr)
    (hread : pr &&& kMemoryProtectRead = kMemoryProtectRead) :
    readMemory env (addrDigits ++ 44 :: [48]) = [] := by
  unfold readMemory
  rw [findIdx?_comma (fun b hb => isHexDigit_ne_comma (hdig b hb))]
  simp only [List.take_left', List.length_append]
  have hdrop : (addrDigits ++ 44 :: [48]).drop (addrDigits.length + 1) = [48] := by
    have h48 : addrDigits ++ 44 :: [48] = (addrDigits ++ [44]) ++ [48] := by simp
    rw [h48]
    exact List.drop_left' (by simp)
  rw [hdrop]
  rw [if_neg (by simp [hheap])]
  simp only [hq]
  rw [if_neg (by simp [hread])]
  rfl

/-- C9: an `m addr,0` read of a mapped, readable address replies with
the empty string — on the wire byte-identical (`$#00`) to the empty
packet the dispatcher sends for an unsupported command. -/
theorem c9_zero_length_read_is_unsupported (env : ProcEnv) (c : SessionCache)
    (addrDigits : List Nat) (pr : Nat) (other : GDBCommand)
    (hne : addrDigits ≠ [])
    (hdig : ∀ b ∈ addrDigits, isHexDigit b = true)
    (hheap : env.hasHeap (parseHex addrDigits) = true)
    (hq : env.queryProtect (parseHex addrDigits) = some pr)
    (hread : pr &&& kMemoryProtectRead = kMemoryProtectRead)
    (hunk : other.cmd ∉ knownCommandKeys) :
    (handleGDBCommand env c ⟨ascii "m", addrDigits ++ 44 :: [48], 0⟩).1 = [] ∧
    (handleGDBCommand env c other).1 = [] ∧
    sendPacketWire (handleGDBCommand env c ⟨ascii "m", addrDigits ++ 44 :: [48], 0⟩).1 =
      sendPacketWire (handleGDBCommand env c other).1 ∧
    sendPacketWire [] = ascii "$#00" := by
  have hne' : ∀ k ∈ knownCommandKeys, other.cmd ≠ k := fun k hk he => hunk (he ▸ hk)
  have hm : (handleGDBCommand env c ⟨ascii "m", addrDigits ++ 44 :: [48], 0⟩).1 =
      readMemory env (addrDigits ++ 44 :: [48]) := rfl
  have hmem : readMemory env (addrDigits ++ 44 :: [48]) = [] :=
    readMemory_zero_len env hne hdig hheap hq hread
  have hother : (handleGDBCommand env c other).1 = [] := by
    unfold handleGDBCommand
    rw [if_neg (hne' _ (by decide)), if_neg (hne' _ (by decide)),
      if_neg (hne' _ (by decide)), if_neg (hne' _ (by decide)),
      if_neg (hne' _ (by decide)), if_neg (hne' _ (by decide)),
      if_neg (hne' _ (by decide)), if_neg (hne' _ (by decide)),
      if_neg (hne' _ (by decide)), if_neg (hne' _ (by decide)),
      if_neg (hne' _ (by decide)), if_neg (hne' _ (by decide)),
      if_neg (hne' _ (by decide)), if_neg (hne' _ (by decide)),
      if_neg (hne' _ (by decide)), if_neg (hne' _ (by decide)),
      if_neg (hne' _ (by decide)), if_neg (hne' _ (by decide)),
      if_neg (hne' _ (by decide))]
  refine ⟨hm.trans hmem, hother, ?_, by decide⟩
  rw [hm, hmem, hother]

/-- Witness for C9 at a concrete memory model and the unknown command
`"X"`. -/
theorem c9_zero_length_read_is_unsupported_witness :
    (handleGDBCommand ⟨fun _ => true, fun _ => some 1, fun _ => 171, fun _ => []⟩
        ⟨true, false, -1, -1, -1, -1, [], [], []⟩
        ⟨ascii "m", [49, 48, 48] ++ 44 :: [48], 0⟩).1 = [] ∧
    (handleGDBCommand ⟨fun _ => true, fun _ => some 1, fun _ => 171, fun _ => []⟩
        ⟨true, false, -1, -1, -1, -1, [], [], []⟩ ⟨ascii "X", [], 0⟩).1 = [] ∧
    sendPacketWire (handleGDBCommand ⟨fun _ => true, fun _ => some 1, fun _ => 171, fun _ => []⟩
        ⟨true, false, -1, -1, -1, -1, [], [], []⟩
        ⟨ascii "m", [49, 48, 48] ++ 44 :: [48], 0⟩).1 =
      sendPacketWire (handleGDBCommand ⟨fun _ => true, fun _ => some 1, fun _ => 171, fun _ => []⟩
        ⟨true, false, -1, -1, -1, -1, [], [], []⟩ ⟨ascii "X", [], 0⟩).1 ∧
    sendPacketWire [] = ascii "$#00" := by
  exact c9_zero_length_read_is_unsupported
    ⟨fun _ => true, fun _ => some 1, fun _ => 171, fun _ => []⟩
    ⟨true, false, -1, -1, -1, -1, [], [], []⟩ [49, 48, 48] 1 ⟨ascii "X", [], 0⟩
    (by decide) (by decide) rfl rfl rfl (by decide)

end GdbStub
